import Mathlib

/-!
# Verification of the Task 2 data-warehouse transformation

Shallow embedding of `src/run_task2.py` (class `Task2DataWarehouse`): the
record loader (`load_raw_data`), the staging / dimension / fact SQL issued by
`create_star_schema`, and the quality-test runner (`run_data_tests`).

Modelling conventions:
* Calendar days are integer day numbers; an SQL `TIMESTAMP` is a pair of a day
  number and a within-day component, ordered lexicographically (SQLite compares
  ISO-formatted timestamp strings, which orders first by calendar day and then
  by time of day).  `DATE(ts)` is the day component.
* The `date_key` column (`strftime` of the day as a `YYYYMMDD` integer) is an
  injective, strictly monotone encoding of the calendar day; we model it as the
  day number itself.
* SQL `NULL`-able columns are `Option`; `NULLIF(x, 0)` followed by a division
  therefore yields an `Option` value (`none` for SQL `NULL`).
* SQL numbers appearing in averages / percentages are modelled as `Rat`;
  `ROUND(x, 2)` is round-half-away-from-zero at two decimals.
* `CREATE TABLE IF NOT EXISTS t AS ...` is modelled by keeping an `Option`
  table in the warehouse state: an existing table is kept untouched, a missing
  one is built.
-/

namespace MTW

/-- An SQL TIMESTAMP value: calendar-day number plus a within-day component. -/
structure Timestamp where
  day : Int
  tod : Int
deriving DecidableEq

/-- Strict `<` on timestamps (SQLite string comparison of ISO timestamps:
first by calendar day, then by time of day). -/
def Timestamp.ltb (a b : Timestamp) : Bool :=
  a.day < b.day || (a.day == b.day && a.tod < b.tod)

/-- One row of `raw_telegram_messages` as inserted by `load_raw_data`
(nullable columns are `Option`; `views`/`forwards` may be NULL in raw and are
COALESCEd in staging). -/
structure RawMessage where
  message_id : Int
  channel_name : String
  channel_username : Option String
  channel_title : Option String
  message_date : Option Timestamp
  message_text : Option String
  has_media : Bool
  image_path : Option String
  views : Option Int
  forwards : Option Int
deriving DecidableEq

/-- SQL `TRIM`: strip leading and trailing space characters. -/
def sqlTrim (s : String) : String :=
  String.mk (((s.data.dropWhile (fun c => c == ' ')).reverse.dropWhile
    (fun c => c == ' ')).reverse)

/-- SQL `LENGTH` of a text value: its character count. -/
def sqlLength (s : String) : Int :=
  (s.data.length : Int)

/-- One row of `stg_telegram_messages` (the staging CTE in
`create_star_schema`); `message_date` is non-null because the raw CTE filters
`WHERE message_date IS NOT NULL`. -/
structure StagingRecord where
  message_id : Int
  channel_name : String
  channel_username : Option String
  channel_title : Option String
  message_date : Timestamp
  scraped_dummy : Unit
  message_text : Option String
  cleaned_message_text : Option String
  message_length : Option Int
  has_media : Bool
  image_path : Option String
  has_image : Bool
  views : Int
  forwards : Int
  is_empty_message : Bool
  is_future_date : Bool
  has_negative_views : Bool
  data_quality_status : String
deriving DecidableEq

/-- The `cleaned_data` CTE of the staging query, for one raw row whose
`message_date` is the non-null value `d` (`now` is `CURRENT_TIMESTAMP`). -/
def mkStagingRecord (now : Timestamp) (r : RawMessage) (d : Timestamp) :
    StagingRecord :=
  let views := r.views.getD 0
  let forwards := r.forwards.getD 0
  let cleaned := r.message_text.map sqlTrim
  let mlen := r.message_text.map (fun t => sqlLength (sqlTrim t))
  let is_empty :=
    match r.message_text with
    | none => true
    | some t => sqlTrim t == ""
  let is_future := Timestamp.ltb now d
  let has_neg := decide (views < 0)
  { message_id := r.message_id
    channel_name := r.channel_name
    channel_username := r.channel_username
    channel_title := r.channel_title
    message_date := d
    scraped_dummy := ()
    message_text := r.message_text
    cleaned_message_text := cleaned
    message_length := mlen
    has_media := r.has_media
    image_path := r.image_path
    has_image := r.image_path.isSome
    views := views
    forwards := forwards
    is_empty_message := is_empty
    is_future_date := is_future
    has_negative_views := has_neg
    data_quality_status :=
      if is_empty || is_future || has_neg then "needs_review" else "valid" }

/-- The staging table (`CREATE TABLE stg_telegram_messages AS ...`): non-null
dated raw rows, cleaned and quality-tagged, with future-dated rows dropped by
the final `WHERE NOT is_future_date`. -/
def stg_telegram_messages (now : Timestamp) (raws : List RawMessage) :
    List StagingRecord :=
  raws.filterMap fun r =>
    match r.message_date with
    | none => none
    | some d =>
        if Timestamp.ltb now d then none else some (mkStagingRecord now r d)

/-- Lower-case a channel name to a character list (SQL `LOWER`). -/
def lowerChars (s : String) : List Char :=
  s.data.map Char.toLower

/-- `needle` is a prefix of `haystack` (character lists). -/
def charsStartWith : List Char → List Char → Bool
  | [], _ => true
  | _ :: _, [] => false
  | a :: as, b :: bs => a == b && charsStartWith as bs

/-- `needle` occurs contiguously somewhere in `haystack`. -/
def charsOccurIn (needle : List Char) : List Char → Bool
  | [] => needle.isEmpty
  | c :: rest => charsStartWith needle (c :: rest) || charsOccurIn needle rest

/-- SQL `LOWER(name) LIKE '%kw%'` for a lower-case literal keyword `kw`. -/
def likeContains (name kw : String) : Bool :=
  charsOccurIn (lowerChars kw) (lowerChars name)

/-- Keywords of the `Pharmaceutical` branch of the classification CASE. -/
def pharmaKeywords : List String :=
  ["pharma", "med", "drug", "pharmacy", "pill", "tablet"]

/-- Keywords of the `Cosmetics` branch of the classification CASE. -/
def cosmeticsKeywords : List String :=
  ["cosmetic", "beauty", "skin", "cream", "lotion", "makeup"]

/-- Keywords of the `Medical` branch of the classification CASE. -/
def medicalKeywords : List String :=
  ["health", "medical", "hospital", "clinic", "doctor"]

/-- The `channel_type` CASE expression of the channel dimension query. -/
def channelType (name : String) : String :=
  if pharmaKeywords.any (fun kw => likeContains name kw) then "Pharmaceutical"
  else if cosmeticsKeywords.any (fun kw => likeContains name kw) then "Cosmetics"
  else if medicalKeywords.any (fun kw => likeContains name kw) then "Medical"
  else "Other"

/-- Spec-side formulation of the classification rule (spec section 4.4 / 9: an
ordered table of category/keyword-set pairs, evaluated top-down, first match
wins, default `Other`), to be compared with the code-side `channelType`. -/
def classificationTable : List (String × List String) :=
  [("Pharmaceutical", pharmaKeywords),
   ("Cosmetics", cosmeticsKeywords),
   ("Medical", medicalKeywords)]

/-- First-match evaluation of the spec's ordered classification table. -/
def classifySpec (name : String) : String :=
  match classificationTable.find? (fun cat => cat.2.any (fun kw => likeContains name kw)) with
  | some cat => cat.1
  | none => "Other"

/-- One row of `dim_dates`.  `full_date` is the calendar-day number and
`date_key` its injective monotone integer encoding (see header). -/
structure DimDate where
  date_key : Int
  full_date : Int
deriving DecidableEq

/-- The MIN/MAX query over `DATE(message_date)` of all staging rows, followed
by the Python branch: pad an observed range by 30 days on each side, or fall
back to `now ± 365` days when no dates were observed. -/
def computeDateRange (now : Timestamp) (stg : List StagingRecord) : Int × Int :=
  match stg.map (fun s => s.message_date.day) with
  | [] => (now.day - 365, now.day + 365)
  | d :: ds => (ds.foldl min d - 30, ds.foldl max d + 30)

/-- The recursive date CTE: emits `lo`, then keeps adding one day while the
last emitted day is `< hi` (so the closed interval `[lo, hi]`, or `[lo]` alone
if `hi < lo`). -/
def dateRangeList (lo hi : Int) : List Int :=
  (List.range ((hi - lo).toNat + 1)).map (fun (i : Nat) => lo + (i : Int))

/-- `CREATE TABLE dim_dates AS ...`: one row per day of the padded range. -/
def dim_dates (now : Timestamp) (stg : List StagingRecord) : List DimDate :=
  let r := computeDateRange now stg
  (dateRangeList r.1 r.2).map (fun d => { date_key := d, full_date := d })

/-- Grouping key of the channel dimension:
`GROUP BY channel_name, channel_username, channel_title`. -/
def channelTriple (m : StagingRecord) : String × Option String × Option String :=
  (m.channel_name, m.channel_username, m.channel_title)

/-- First-occurrence deduplication (the distinct groups of a GROUP BY, in
first-seen order); `seen` accumulates keys already emitted. -/
def dedupKeysAux {κ : Type} [BEq κ] (seen : List κ) : List κ → List κ
  | [] => []
  | k :: ks =>
      if seen.contains k then dedupKeysAux seen ks
      else k :: dedupKeysAux (k :: seen) ks

/-- Distinct keys of a list, keeping first occurrences in order. -/
def dedupKeys {κ : Type} [BEq κ] (l : List κ) : List κ :=
  dedupKeysAux [] l

/-- Smaller of two timestamps (SQL `MIN` aggregate step). -/
def tsMin (a b : Timestamp) : Timestamp := if Timestamp.ltb b a then b else a

/-- Larger of two timestamps (SQL `MAX` aggregate step). -/
def tsMax (a b : Timestamp) : Timestamp := if Timestamp.ltb a b then b else a

/-- The `channel_stats` CTE aggregates for one group. -/
structure ChannelStat where
  channel_name : String
  channel_username : Option String
  channel_title : Option String
  first_post_date : Timestamp
  last_post_date : Timestamp
  total_posts : Nat
  avg_views : Rat
  avg_forwards : Rat
  posts_with_media : Nat
  posts_with_image : Nat
deriving DecidableEq

/-- Aggregate one (never empty in the pipeline) group of staging rows into its
`channel_stats` row. -/
def channelStats (key : String × Option String × Option String)
    (grp : List StagingRecord) : ChannelStat :=
  let dates := grp.map (fun m => m.message_date)
  let firstD := match dates with | [] => { day := 0, tod := 0 } | t :: ts => ts.foldl tsMin t
  let lastD := match dates with | [] => { day := 0, tod := 0 } | t :: ts => ts.foldl tsMax t
  { channel_name := key.1
    channel_username := key.2.1
    channel_title := key.2.2
    first_post_date := firstD
    last_post_date := lastD
    total_posts := grp.length
    avg_views := ((grp.map (fun m => m.views)).sum : Rat) / (grp.length : Rat)
    avg_forwards := ((grp.map (fun m => m.forwards)).sum : Rat) / (grp.length : Rat)
    posts_with_media := (grp.filter (fun m => m.has_media)).length
    posts_with_image := (grp.filter (fun m => m.has_image)).length }

/-- SQL `ROUND(x, 2)`: round half away from zero at two decimals. -/
def sqlRound2 (q : Rat) : Rat :=
  if 0 ≤ q then ((Int.floor (q * 100 + 1 / 2) : Int) : Rat) / 100
  else -(((Int.floor (-q * 100 + 1 / 2) : Int) : Rat) / 100)

/-- One row of `dim_channels`.  The two percentages are `Option` because the
SQL divides by `NULLIF(total_posts, 0)`, which is NULL when the count is 0. -/
structure DimChannel where
  channel_key : Int
  channel_name : String
  channel_username : Option String
  channel_title : Option String
  channel_type : String
  first_post_date : Timestamp
  last_post_date : Timestamp
  total_posts : Nat
  avg_views : Rat
  avg_forwards : Rat
  posts_with_media : Nat
  posts_with_image : Nat
  media_percentage : Option Rat
  image_percentage : Option Rat
  activity_status : String
deriving DecidableEq

/-- Final SELECT of the channel dimension for one stats row, given its
`ROW_NUMBER` key `k` (`now` is the run time used by `DATE('now', ...)`). -/
def mkDimChannel (now : Timestamp) (k : Int) (st : ChannelStat) : DimChannel :=
  { channel_key := k
    channel_name := st.channel_name
    channel_username := st.channel_username
    channel_title := st.channel_title
    channel_type := channelType st.channel_name
    first_post_date := st.first_post_date
    last_post_date := st.last_post_date
    total_posts := st.total_posts
    avg_views := sqlRound2 st.avg_views
    avg_forwards := sqlRound2 st.avg_forwards
    posts_with_media := st.posts_with_media
    posts_with_image := st.posts_with_image
    media_percentage :=
      if st.total_posts == 0 then none
      else some (sqlRound2 (((st.posts_with_media : Rat) * 100) / (st.total_posts : Rat)))
    image_percentage :=
      if st.total_posts == 0 then none
      else some (sqlRound2 (((st.posts_with_image : Rat) * 100) / (st.total_posts : Rat)))
    activity_status :=
      if now.day - 7 ≤ st.last_post_date.day then "active"
      else if now.day - 30 ≤ st.last_post_date.day then "moderate"
      else "inactive" }

/-- Insert into a list sorted by strictly descending `total_posts`, after all
existing entries with at least as many posts (the stable order of
`ROW_NUMBER() OVER (ORDER BY total_posts DESC)`). -/
def insertDescByPosts (a : ChannelStat) : List ChannelStat → List ChannelStat
  | [] => [a]
  | b :: bs =>
      if b.total_posts < a.total_posts then a :: b :: bs
      else b :: insertDescByPosts a bs

/-- Stable sort by descending `total_posts`. -/
def sortDescByPosts : List ChannelStat → List ChannelStat
  | [] => []
  | a :: as => insertDescByPosts a (sortDescByPosts as)

/-- Assign `ROW_NUMBER` keys `k, k+1, ...` down the sorted stats list. -/
def assignChannelKeys (now : Timestamp) (k : Int) :
    List ChannelStat → List DimChannel
  | [] => []
  | st :: rest => mkDimChannel now k st :: assignChannelKeys now (k + 1) rest

/-- `CREATE TABLE dim_channels AS ...`: group the `valid` staging rows by the
name/username/title triple, aggregate, classify, and number by descending
total posts starting from 1. -/
def dim_channels (now : Timestamp) (stg : List StagingRecord) :
    List DimChannel :=
  let valids := stg.filter (fun m => m.data_quality_status == "valid")
  let keys := dedupKeys (valids.map channelTriple)
  let stats := keys.map (fun k => channelStats k (valids.filter (fun m => channelTriple m == k)))
  assignChannelKeys now 1 (sortDescByPosts stats)

/-- One row of `fct_messages`. -/
structure FactRow where
  message_id : Int
  channel_key : Int
  date_key : Int
  message_text : Option String
  message_length : Option Int
  view_count : Int
  forward_count : Int
  has_image : Bool
  data_quality_status : String
deriving DecidableEq

/-- The fact rows produced for one staging row: none unless `valid`, else one
row per channel-dimension row with the same `channel_name` (the LEFT JOIN
matches on the name alone) and per date-dimension row with the same calendar
day, as demanded by the WHERE clause (both keys non-null, status valid). -/
def factRowsFor (m : StagingRecord) (channels : List DimChannel)
    (dates : List DimDate) : List FactRow :=
  if m.data_quality_status == "valid" then
    (channels.filter (fun c => c.channel_name == m.channel_name)).flatMap fun c =>
      (dates.filter (fun d => d.full_date == m.message_date.day)).map fun d =>
        { message_id := m.message_id
          channel_key := c.channel_key
          date_key := d.date_key
          message_text := m.cleaned_message_text
          message_length := m.message_length
          view_count := m.views
          forward_count := m.forwards
          has_image := m.has_image
          data_quality_status := m.data_quality_status }
  else []

/-- `CREATE TABLE fct_messages AS ...`: staging LEFT JOIN `dim_channels` on
`channel_name` alone, LEFT JOIN `dim_dates` on the calendar day, with the
WHERE clause demanding both keys non-null and a `valid` quality status (so an
inner join restricted to valid rows; one output row per matching pair of
dimension rows). -/
def fct_messages (stg : List StagingRecord) (channels : List DimChannel)
    (dates : List DimDate) : List FactRow :=
  stg.flatMap fun m => factRowsFor m channels dates

/-- An element of a parsed raw JSON batch: a message object, or a non-object
entry that the loader skips. -/
inductive RawEntry where
  | record (r : RawMessage)
  | malformed
deriving DecidableEq

/-- The `(message_id, channel_name)` uniqueness key of the raw table. -/
def sameKey (r x : RawMessage) : Bool :=
  x.message_id == r.message_id && x.channel_name == r.channel_name

/-- `INSERT OR IGNORE` into the raw store keyed by `(message_id,
channel_name)`. -/
def insertOrIgnore (store : List RawMessage) (r : RawMessage) :
    List RawMessage :=
  if store.any (sameKey r) then store else store ++ [r]

/-- The inner loop of `load_raw_data` over one parsed batch: skip non-object
entries, `INSERT OR IGNORE` the rest. -/
def loadBatch (store : List RawMessage) : List RawEntry → List RawMessage
  | [] => store
  | RawEntry.malformed :: es => loadBatch store es
  | RawEntry.record r :: es => loadBatch (insertOrIgnore store r) es

/-- The store after `load_raw_data` inserts every batch in order. -/
def loadStore (store : List RawMessage) : List (List RawEntry) → List RawMessage
  | [] => store
  | b :: bs => loadStore (loadBatch store b) bs

/-- The counter of `load_raw_data`: `total_messages += len(messages)` per
successfully parsed batch (so every entry of the batch counts, whether or not
it was inserted and whether or not it was an object). -/
def loadCount : List (List RawEntry) → Nat
  | [] => 0
  | b :: bs => b.length + loadCount bs

/-- `load_raw_data`: insert all batches into the store and return the new
store together with the returned message count. -/
def load_raw_data (batches : List (List RawEntry)) (store : List RawMessage) :
    List RawMessage × Nat :=
  (loadStore store batches, loadCount batches)

/-- The warehouse database: the raw store plus the four `CREATE TABLE IF NOT
EXISTS` tables (`none` = table absent). -/
structure Warehouse where
  raw : List RawMessage
  stg : Option (List StagingRecord)
  dimDates : Option (List DimDate)
  dimChannels : Option (List DimChannel)
  facts : Option (List FactRow)
deriving DecidableEq

/-- `CREATE TABLE IF NOT EXISTS t AS build`: keep an existing table untouched,
otherwise materialize `build`. -/
def materializeIfAbsent {α : Type} (existing : Option α) (build : α) : α :=
  match existing with
  | some t => t
  | none => build

/-- `create_star_schema`: staging, date dimension, channel dimension and fact
table, each under `CREATE TABLE IF NOT EXISTS` semantics. -/
def create_star_schema (now : Timestamp) (w : Warehouse) : Warehouse :=
  let stg := materializeIfAbsent w.stg (stg_telegram_messages now w.raw)
  let dd := materializeIfAbsent w.dimDates (dim_dates now stg)
  let dc := materializeIfAbsent w.dimChannels (dim_channels now stg)
  let f := materializeIfAbsent w.facts (fct_messages stg dc dd)
  { raw := w.raw, stg := some stg, dimDates := some dd,
    dimChannels := some dc, facts := some f }

/-- One run of the Task 2 pipeline: `load_raw_data` then
`create_star_schema`. -/
def runPipeline (now : Timestamp) (batches : List (List RawEntry))
    (w : Warehouse) : Warehouse :=
  create_star_schema now { w with raw := (load_raw_data batches w.raw).1 }

/-- Outcome of executing one quality-check query: a count, or a raised
execution error (e.g. a missing table). -/
inductive CheckOutcome where
  | ok (n : Int)
  | err (msg : String)
deriving DecidableEq

/-- One entry of the `results` list of `run_data_tests`. -/
structure TestResult where
  test : String
  passed : Bool
  result : Int
deriving DecidableEq

/-- The body of the test loop of `run_data_tests` for one check: every check
is `should_be_zero`, so it passes iff its count is 0; a check that raises is
caught, sets `all_passed` to false and appends nothing to `results`. -/
def runDataTestsStep (acc : Bool × List TestResult)
    (c : String × CheckOutcome) : Bool × List TestResult :=
  match c.2 with
  | CheckOutcome.ok n =>
      let passed := n == 0
      (acc.1 && passed, acc.2 ++ [{ test := c.1, passed := passed, result := n }])
  | CheckOutcome.err _ => (false, acc.2)

/-- `run_data_tests`: run the loop body over every check in order (an error
never aborts the remaining checks) and return `(all_passed, results)`. -/
def run_data_tests (checks : List (String × CheckOutcome)) :
    Bool × List TestResult :=
  checks.foldl runDataTestsStep (true, [])

/-- A check passed: it executed without error and returned a zero count. -/
def checkPassed (c : String × CheckOutcome) : Bool :=
  match c.2 with
  | CheckOutcome.ok n => n == 0
  | CheckOutcome.err _ => false

/-- The result entry a check contributes: its name/verdict/count if it
executed, nothing if it raised. -/
def checkReport (c : String × CheckOutcome) : Option TestResult :=
  match c.2 with
  | CheckOutcome.ok n => some { test := c.1, passed := n == 0, result := n }
  | CheckOutcome.err _ => none

/-- Concrete run time (day 300) used by the concrete example runs below. -/
def egNow : Timestamp :=
  { day := 300, tod := 0 }

/-- A concrete well-formed raw message (day 100), used by concrete runs. -/
def egRawA : RawMessage :=
  { message_id := 1
    channel_name := "HealthPlus"
    channel_username := some "hp"
    channel_title := some "Health Plus"
    message_date := some { day := 100, tod := 0 }
    message_text := some "hello"
    has_media := false
    image_path := none
    views := some 5
    forwards := some 1 }

/-- A second concrete raw message on a later day (day 200), other channel. -/
def egRawB : RawMessage :=
  { message_id := 7
    channel_name := "SkinGlow"
    channel_username := some "sg"
    channel_title := some "Skin Glow"
    message_date := some { day := 200, tod := 0 }
    message_text := some "lotion restock"
    has_media := true
    image_path := some "img/7.jpg"
    views := some 12
    forwards := some 0 }

/-- A third concrete raw message: same `channel_name` as `egRawA` but a
different username/title, so it forms a second dimension group with a
duplicated channel name. -/
def egRawC : RawMessage :=
  { message_id := 2
    channel_name := "HealthPlus"
    channel_username := some "hp2"
    channel_title := some "Health Plus Mirror"
    message_date := some { day := 100, tod := 0 }
    message_text := some "promo"
    has_media := false
    image_path := none
    views := some 3
    forwards := some 0 }

/-- The first channel-dimension row of the one-message example run (the list
is nonempty, which `decide` checks on the list spine alone). -/
def egChannel : DimChannel :=
  (dim_channels egNow (stg_telegram_messages egNow [egRawA])).head (by decide)

/-- The (single) staging row of the one-message example run. -/
def egStagingRow : StagingRecord :=
  mkStagingRecord egNow egRawA { day := 100, tod := 0 }

end MTW

namespace MTW

/-! ## Helper lemmas -/

/-- Every staging row comes from a raw row with a non-null, non-future
message date, via `mkStagingRecord`. -/
theorem mem_stg_telegram_messages {now : Timestamp} {raws : List RawMessage}
    {s : StagingRecord} (h : s ∈ stg_telegram_messages now raws) :
    ∃ r ∈ raws, ∃ d, r.message_date = some d ∧ Timestamp.ltb now d = false ∧
      s = mkStagingRecord now r d := by
  rw [stg_telegram_messages, List.mem_filterMap] at h
  obtain ⟨r, hr, hf⟩ := h
  refine ⟨r, hr, ?_⟩
  split at hf
  · exact absurd hf (by simp)
  · rename_i d hd
    split at hf
    · exact absurd hf (by simp)
    · rename_i hlt
      exact ⟨d, hd, Bool.eq_false_iff.mpr hlt, (Option.some_inj.mp hf).symm⟩

/-- `Timestamp.ltb a b = false` says exactly `b ≤ a` in the lexical
day/time-of-day order. -/
theorem Timestamp.ltb_eq_false_iff (a b : Timestamp) :
    Timestamp.ltb a b = false ↔
      (b.day < a.day ∨ (b.day = a.day ∧ b.tod ≤ a.tod)) := by
  simp only [Timestamp.ltb, Bool.or_eq_false_iff, Bool.and_eq_false_iff,
    decide_eq_false_iff_not, beq_eq_false_iff_ne, ne_eq, not_lt, beq_iff_eq,
    decide_eq_true_eq]
  omega

/-! ## Claim theorems -/

/-- C9: every raw record with a message timestamp strictly after the run time
is dropped before staging, so every staging row (in particular every `valid`
one) has `message_date ≤ run_time`: its date is not after `now`, in lexical
day/time-of-day order, and its `is_future_date` flag is false. -/
theorem staging_has_no_future_rows (now : Timestamp) (raws : List RawMessage)
    (s : StagingRecord) (h : s ∈ stg_telegram_messages now raws) :
    Timestamp.ltb now s.message_date = false ∧
      s.is_future_date = false ∧
      (s.message_date.day < now.day ∨
        (s.message_date.day = now.day ∧ s.message_date.tod ≤ now.tod)) := by
  obtain ⟨r, _, d, _, hlt, rfl⟩ := mem_stg_telegram_messages h
  refine ⟨hlt, hlt, ?_⟩
  have hd := (Timestamp.ltb_eq_false_iff now d).mp hlt
  simpa [mkStagingRecord] using hd

/-- C8: the stored `message_length` of every staging row is exactly
`LENGTH(TRIM(text))` of its (possibly NULL) message text — NULL text gives a
NULL length — and any stored numeric length is non-negative. -/
theorem staging_message_length_eq_trimmed (now : Timestamp)
    (raws : List RawMessage) (s : StagingRecord)
    (h : s ∈ stg_telegram_messages now raws) :
    s.message_length = s.message_text.map (fun t => sqlLength (sqlTrim t)) ∧
      ∀ n : Int, s.message_length = some n → 0 ≤ n := by
  obtain ⟨r, _, d, _, _, rfl⟩ := mem_stg_telegram_messages h
  constructor
  · rfl
  · intro n hn
    have hn' : r.message_text.map (fun t => sqlLength (sqlTrim t)) = some n := hn
    rw [Option.map_eq_some'] at hn'
    obtain ⟨t, _, ht⟩ := hn'
    rw [← ht]
    exact Int.natCast_nonneg _

/-- C7: channel classification is the first-match, case-insensitive substring
rule over the ordered Pharmaceutical / Cosmetics / Medical keyword table with
default `Other`; `"HealthPlus"` classifies as `Medical` and `"SkinGlow"` as
`Cosmetics`. -/
theorem channel_classification_first_match :
    channelType "HealthPlus" = "Medical" ∧
      channelType "SkinGlow" = "Cosmetics" ∧
      ∀ name : String, channelType name = classifySpec name := by
  refine ⟨by decide, by decide, ?_⟩
  intro name
  cases h1 : pharmaKeywords.any (fun kw => likeContains name kw) <;>
    cases h2 : cosmeticsKeywords.any (fun kw => likeContains name kw) <;>
      cases h3 : medicalKeywords.any (fun kw => likeContains name kw) <;>
        simp [channelType, classifySpec, classificationTable, List.find?,
          h1, h2, h3]

/-- Amended C2: with an empty staging set the date dimension covers exactly
the default window `[run_time - 365 days, run_time + 365 days]` — the 30-day
padding is applied only to an observed (non-empty) date range. -/
theorem dim_dates_empty_default_window (now : Timestamp) :
    computeDateRange now [] = (now.day - 365, now.day + 365) ∧
      (dim_dates now []).map DimDate.full_date =
        dateRangeList (now.day - 365) (now.day + 365) ∧
      (dim_dates now []).length = 731 := by
  have hr : computeDateRange now [] = (now.day - 365, now.day + 365) := rfl
  have hcomp : (DimDate.full_date ∘ fun d : Int =>
      ({ date_key := d, full_date := d } : DimDate)) = id := rfl
  refine ⟨rfl, ?_, ?_⟩
  · simp only [dim_dates, hr, List.map_map, hcomp, List.map_id]
  · simp only [dim_dates, hr, dateRangeList, List.length_map,
      List.length_range]
    omega

set_option maxRecDepth 8000 in
/-- C2 counterexample: at run time day 0 with no staging rows, the generated
date dimension starts at day `-365` and does not contain day `-395`, so it
does not span `[run_time - 395 days, run_time + 395 days]`. -/
theorem dim_dates_empty_window_not_395 :
    ((dim_dates { day := 0, tod := 0 } []).map DimDate.full_date).head? =
        some (-365) ∧
      ((dim_dates { day := 0, tod := 0 } []).map
          DimDate.full_date).contains (-395) = false ∧
      ((-365 : Int)) ≠ -395 := by
  refine ⟨rfl, by decide, by decide⟩

/-- Amended C4: the record loader returns the total number of entries seen in
the successfully parsed batches — duplicate records and skipped malformed
entries included — not the number of records newly inserted. -/
theorem load_raw_data_returns_count_seen (batches : List (List RawEntry))
    (store : List RawMessage) :
    (load_raw_data batches store).2 = (batches.map List.length).sum := by
  induction batches with
  | nil => rfl
  | cons b bs ih =>
      simp only [load_raw_data, loadCount, List.map_cons, List.sum_cons] at *
      omega

/-- C4 counterexample: loading one batch holding the same record twice inserts
one row but returns 2, so the return value is not the newly-inserted count. -/
theorem load_raw_data_count_not_inserted :
    (load_raw_data [[RawEntry.record egRawA, RawEntry.record egRawA]] []).2
        = 2 ∧
      (load_raw_data [[RawEntry.record egRawA, RawEntry.record egRawA]]
          []).1.length = 1 ∧
      (2 : Nat) ≠ 1 := by
  refine ⟨rfl, by decide, by decide⟩

/-- The test loop, started from any accumulator: the verdict is the
conjunction of the accumulated verdict with every check passing, and the
results are the accumulated results extended by one entry per check that
executed without raising. -/
theorem run_data_tests_foldl (checks : List (String × CheckOutcome)) :
    ∀ (b : Bool) (rs : List TestResult),
      checks.foldl runDataTestsStep (b, rs) =
        (b && checks.all checkPassed, rs ++ checks.filterMap checkReport) := by
  induction checks with
  | nil => intro b rs; simp
  | cons c cs ih =>
      intro b rs
      rcases c with ⟨nm, oc⟩
      cases oc with
      | ok n =>
          simp only [List.foldl_cons, runDataTestsStep, ih, List.all_cons,
            List.filterMap_cons, checkPassed, checkReport, Bool.and_assoc,
            List.append_assoc, List.singleton_append]
      | err m =>
          simp only [List.foldl_cons, runDataTestsStep, ih, List.all_cons,
            List.filterMap_cons, checkPassed, checkReport, Bool.false_and,
            Bool.and_false]

/-- Amended C5: every remaining check still executes after an execution error,
and a check that raises sets the overall verdict to false but is omitted from
the reported results (it is not reported as a failed check); the overall
verdict is true iff every check executed without error and returned 0. -/
theorem run_data_tests_reports_executed_checks
    (checks : List (String × CheckOutcome)) :
    run_data_tests checks =
      (checks.all checkPassed, checks.filterMap checkReport) := by
  simpa using run_data_tests_foldl checks true []

/-- C5 counterexample: with a first check that raises and a second that
passes, the runner returns `all_passed = false` but the erroring check is
absent from the results (only the second check is reported), refuting "that
check appears in the results as a failed check" and "all passed iff every
individual (reported) check passed". -/
theorem error_check_missing_from_results :
    run_data_tests
        [("No future dates", CheckOutcome.err "no such table"),
         ("No negative views", CheckOutcome.ok 0)] =
      (false, [{ test := "No negative views", passed := true, result := 0 }]) ∧
      ((run_data_tests
          [("No future dates", CheckOutcome.err "no such table"),
           ("No negative views", CheckOutcome.ok 0)]).2.map
            TestResult.test).contains "No future dates" = false := by
  refine ⟨rfl, by decide⟩

/-- Monotonicity of `INSERT OR IGNORE`: any key already present stays
present. -/
theorem any_insertOrIgnore {store : List RawMessage} {p : RawMessage → Bool}
    (h : store.any p = true) (r : RawMessage) :
    (insertOrIgnore store r).any p = true := by
  rw [insertOrIgnore]
  split
  · exact h
  · rw [List.any_append, h, Bool.true_or]

/-- `INSERT OR IGNORE` establishes its own key. -/
theorem any_insertOrIgnore_self (store : List RawMessage) (r : RawMessage) :
    (insertOrIgnore store r).any (sameKey r) = true := by
  rw [insertOrIgnore]
  split
  · assumption
  · rw [List.any_append]
    simp [sameKey]

/-- Loading a batch preserves any key already present in the store. -/
theorem any_loadBatch {store : List RawMessage} {p : RawMessage → Bool}
    (h : store.any p = true) (b : List RawEntry) :
    (loadBatch store b).any p = true := by
  induction b generalizing store with
  | nil => exact h
  | cons e es ih =>
      cases e with
      | malformed => exact ih h
      | record r => exact ih (any_insertOrIgnore h r)

/-- After loading a batch, every record of the batch is present. -/
theorem loadBatch_establishes (b : List RawEntry) :
    ∀ (store : List RawMessage) (r : RawMessage),
      RawEntry.record r ∈ b → (loadBatch store b).any (sameKey r) = true := by
  induction b with
  | nil => intro _ _ h; exact absurd h (List.not_mem_nil _)
  | cons e es ih =>
      intro store r hr
      cases e with
      | malformed =>
          rw [List.mem_cons] at hr
          rcases hr with hr | hr
          · exact absurd hr (by simp)
          · exact ih store r hr
      | record r' =>
          rw [List.mem_cons] at hr
          rcases hr with hr | hr
          · have : r = r' := by injection hr
            subst this
            exact any_loadBatch (any_insertOrIgnore_self store r) es
          · exact ih (insertOrIgnore store r') r hr

/-- Re-inserting a record whose key is already present is a no-op. -/
theorem insertOrIgnore_present {store : List RawMessage} {r : RawMessage}
    (h : store.any (sameKey r) = true) : insertOrIgnore store r = store := by
  rw [insertOrIgnore, if_pos h]

/-- Re-loading a batch all of whose records are present is a no-op. -/
theorem loadBatch_all_present (b : List RawEntry) :
    ∀ store : List RawMessage,
      (∀ r : RawMessage, RawEntry.record r ∈ b →
        store.any (sameKey r) = true) →
      loadBatch store b = store := by
  induction b with
  | nil => intro _ _; rfl
  | cons e es ih =>
      intro store hall
      cases e with
      | malformed =>
          exact ih store (fun r hr => hall r (List.mem_cons_of_mem _ hr))
      | record r' =>
          have hp : store.any (sameKey r') = true :=
            hall r' (List.mem_cons_self _ _)
          rw [loadBatch, insertOrIgnore_present hp]
          exact ih store (fun r hr => hall r (List.mem_cons_of_mem _ hr))

/-- Loading a sequence of batches preserves any key already present. -/
theorem any_loadStore {store : List RawMessage} {p : RawMessage → Bool}
    (h : store.any p = true) (bs : List (List RawEntry)) :
    (loadStore store bs).any p = true := by
  induction bs generalizing store with
  | nil => exact h
  | cons b rest ih => exact ih (any_loadBatch h b)

/-- After a full `load_raw_data` pass, every record of every batch is present
in the resulting store. -/
theorem loadStore_establishes (bs : List (List RawEntry)) :
    ∀ (store : List RawMessage) (b : List RawEntry) (r : RawMessage),
      b ∈ bs → RawEntry.record r ∈ b →
      (loadStore store bs).any (sameKey r) = true := by
  induction bs with
  | nil => intro _ _ _ h; exact absurd h (List.not_mem_nil _)
  | cons b0 rest ih =>
      intro store b r hb hr
      rw [List.mem_cons] at hb
      rcases hb with hb | hb
      · subst hb
        exact any_loadStore (loadBatch_establishes b store r hr) rest
      · exact ih (loadBatch store b0) b r hb hr

/-- Re-running the loader over batches whose records are all present already
leaves the store unchanged. -/
theorem loadStore_all_present (bs : List (List RawEntry)) :
    ∀ store : List RawMessage,
      (∀ (b : List RawEntry) (r : RawMessage), b ∈ bs →
        RawEntry.record r ∈ b → store.any (sameKey r) = true) →
      loadStore store bs = store := by
  induction bs with
  | nil => intro _ _; rfl
  | cons b0 rest ih =>
      intro store hall
      have h0 : loadBatch store b0 = store :=
        loadBatch_all_present b0 store
          (fun r hr => hall b0 r (List.mem_cons_self _ _) hr)
      rw [loadStore, h0]
      exact ih store (fun b r hb hr => hall b r (List.mem_cons_of_mem _ hb) hr)

/-- Loading the same batches a second time is a no-op on the raw store. -/
theorem loadStore_idem (bs : List (List RawEntry)) (store : List RawMessage) :
    loadStore (loadStore store bs) bs = loadStore store bs := by
  exact loadStore_all_present bs (loadStore store bs)
    (fun b r hb hr => loadStore_establishes bs store b r hb hr)

/-- Amended C3: a `CREATE TABLE IF NOT EXISTS` date dimension is kept
untouched by a re-run — a widened staging range does **not** supersede the
narrower one while the old table exists — and re-running the whole pipeline
with the same input batches changes nothing (no duplicate raw, dimension, or
fact rows). -/
theorem rerun_is_idempotent_but_keeps_tables :
    (∀ (now : Timestamp) (stg : List StagingRecord) (t : List DimDate),
        materializeIfAbsent (some t) (dim_dates now stg) = t) ∧
      ∀ (now : Timestamp) (batches : List (List RawEntry)) (w : Warehouse),
        runPipeline now batches (runPipeline now batches w) =
          runPipeline now batches w := by
  constructor
  · intro now stg t
    rfl
  · intro now batches w
    show create_star_schema now
        { create_star_schema now { w with raw := loadStore w.raw batches } with
          raw := loadStore
            (create_star_schema now
              { w with raw := loadStore w.raw batches }).raw batches } =
      create_star_schema now { w with raw := loadStore w.raw batches }
    simp only [create_star_schema, materializeIfAbsent, loadStore_idem]

/-- C3 counterexample: after a run whose staging observed only day 100 (so a
date dimension over `[70, 130]`), re-running the date-dimension build over a
staging set that also observes day 200 keeps the stale narrow table — day 200
is absent from the kept dimension although the widened staging set observes
it and a fresh build would cover it. -/
theorem rerun_keeps_stale_date_range :
    (materializeIfAbsent
          (some (dim_dates egNow (stg_telegram_messages egNow [egRawA])))
          (dim_dates egNow
            (stg_telegram_messages egNow [egRawA, egRawB]))).any
        (fun d => d.full_date == 200) = false ∧
      (dim_dates egNow (stg_telegram_messages egNow [egRawA, egRawB])).any
        (fun d => d.full_date == 200) = true ∧
      (stg_telegram_messages egNow [egRawA, egRawB]).any
        (fun s => s.message_date.day == 200) = true := by
  refine ⟨by decide, by decide, by decide⟩

/-- Deduplicated keys come from the original list. -/
theorem mem_dedupKeysAux {κ : Type} [BEq κ] {x : κ} :
    ∀ (seen l : List κ), x ∈ dedupKeysAux seen l → x ∈ l := by
  intro seen l
  induction l generalizing seen with
  | nil => intro h; exact absurd h (List.not_mem_nil _)
  | cons k ks ih =>
      intro h
      rw [dedupKeysAux] at h
      split at h
      · exact List.mem_cons_of_mem _ (ih _ h)
      · rw [List.mem_cons] at h
        rcases h with h | h
        · exact h ▸ List.mem_cons_self _ _
        · exact List.mem_cons_of_mem _ (ih _ h)

/-- Deduplicated keys come from the original list. -/
theorem mem_dedupKeys {κ : Type} [BEq κ] {x : κ} {l : List κ}
    (h : x ∈ dedupKeys l) : x ∈ l :=
  mem_dedupKeysAux [] l h

/-- Insertion into the descending-sorted stats list adds no new elements. -/
theorem mem_insertDescByPosts {x a : ChannelStat} :
    ∀ l : List ChannelStat, x ∈ insertDescByPosts a l → x = a ∨ x ∈ l := by
  intro l
  induction l with
  | nil =>
      intro h
      rw [insertDescByPosts, List.mem_singleton] at h
      exact Or.inl h
  | cons b bs ih =>
      intro h
      rw [insertDescByPosts] at h
      split at h
      · rw [List.mem_cons] at h
        exact h
      · rw [List.mem_cons] at h
        rcases h with h | h
        · exact Or.inr (h ▸ List.mem_cons_self _ _)
        · rcases ih h with h | h
          · exact Or.inl h
          · exact Or.inr (List.mem_cons_of_mem _ h)

/-- Sorting the stats adds no new elements. -/
theorem mem_sortDescByPosts {x : ChannelStat} :
    ∀ l : List ChannelStat, x ∈ sortDescByPosts l → x ∈ l := by
  intro l
  induction l with
  | nil => intro h; exact absurd h (List.not_mem_nil _)
  | cons a as ih =>
      intro h
      rw [sortDescByPosts] at h
      rcases mem_insertDescByPosts _ h with h | h
      · exact h ▸ List.mem_cons_self _ _
      · exact List.mem_cons_of_mem _ (ih h)

/-- Every row assigned a `ROW_NUMBER` key comes from some stats entry. -/
theorem mem_assignChannelKeys {now : Timestamp} {c : DimChannel} :
    ∀ (k : Int) (l : List ChannelStat), c ∈ assignChannelKeys now k l →
      ∃ (j : Int) (st : ChannelStat), st ∈ l ∧ c = mkDimChannel now j st := by
  intro k l
  induction l generalizing k with
  | nil => intro h; exact absurd h (List.not_mem_nil _)
  | cons st rest ih =>
      intro h
      rw [assignChannelKeys, List.mem_cons] at h
      rcases h with h | h
      · exact ⟨k, st, List.mem_cons_self _ _, h⟩
      · obtain ⟨j, st', hst', hc⟩ := ih _ h
        exact ⟨j, st', List.mem_cons_of_mem _ hst', hc⟩

/-- Every `dim_channels` row is the image of a stats entry whose group of
`valid` staging rows is nonempty, so `total_posts ≥ 1` and the media/image
post counts are bounded by the total. -/
theorem mem_dim_channels {now : Timestamp} {stg : List StagingRecord}
    {c : DimChannel} (h : c ∈ dim_channels now stg) :
    ∃ (k : Int) (st : ChannelStat), c = mkDimChannel now k st ∧
      1 ≤ st.total_posts ∧ st.posts_with_media ≤ st.total_posts ∧
      st.posts_with_image ≤ st.total_posts := by
  rw [dim_channels] at h
  obtain ⟨j, st, hst, hc⟩ := mem_assignChannelKeys _ _ h
  have hst' := mem_sortDescByPosts _ hst
  rw [List.mem_map] at hst'
  obtain ⟨key, hkey, rfl⟩ := hst'
  have hkey' := mem_dedupKeys hkey
  rw [List.mem_map] at hkey'
  obtain ⟨m, hm, hmk⟩ := hkey'
  have hmem : m ∈ (stg.filter
      (fun m => m.data_quality_status == "valid")).filter
      (fun m' => channelTriple m' == key) := by
    rw [List.mem_filter]
    exact ⟨hm, by simp [hmk]⟩
  have hlen : 1 ≤ ((stg.filter
      (fun m => m.data_quality_status == "valid")).filter
      (fun m' => channelTriple m' == key)).length :=
    List.length_pos.mpr (List.ne_nil_of_mem hmem)
  exact ⟨j, _, hc, hlen, List.length_filter_le _ _, List.length_filter_le _ _⟩

/-- C10: every channel-dimension row groups at least one `valid` staging row,
so `total_posts ≥ 1`; the `NULLIF(total_posts, 0)` division-by-zero guard is
therefore unreachable and both percentages are non-NULL on every row the
pipeline builds. -/
theorem dim_channels_total_posts_pos (now : Timestamp)
    (stg : List StagingRecord) (c : DimChannel)
    (h : c ∈ dim_channels now stg) :
    1 ≤ c.total_posts ∧ c.media_percentage ≠ none ∧
      c.image_percentage ≠ none := by
  obtain ⟨k, st, rfl, h1, h2, h3⟩ := mem_dim_channels h
  have hz : (st.total_posts == 0) = false := by
    rw [beq_eq_false_iff_ne]
    omega
  refine ⟨h1, ?_, ?_⟩ <;> simp [mkDimChannel, hz]

/-- The raw percentage `count * 100 / total` lies in `[0, 100]` whenever
`count ≤ total` and the total is positive. -/
theorem ratio_bounds {pm tp : Nat} (h1 : 1 ≤ tp) (h2 : pm ≤ tp) :
    0 ≤ ((pm : Rat) * 100) / (tp : Rat) ∧
      ((pm : Rat) * 100) / (tp : Rat) ≤ 100 := by
  have hb : (0 : Rat) < tp := by
    have : 0 < tp := by omega
    exact_mod_cast this
  have ha : (pm : Rat) ≤ tp := by exact_mod_cast h2
  constructor
  · positivity
  · rw [div_le_iff₀ hb]
    nlinarith

/-- `ROUND(q, 2)` of a non-negative rational is non-negative. -/
theorem sqlRound2_nonneg {q : Rat} (h : 0 ≤ q) : 0 ≤ sqlRound2 q := by
  rw [sqlRound2, if_pos h]
  have hf : (0 : Int) ≤ Int.floor (q * 100 + 1 / 2) := by
    rw [Int.le_floor]
    push_cast
    nlinarith
  have hf' : (0 : Rat) ≤ ((Int.floor (q * 100 + 1 / 2) : Int) : Rat) := by
    exact_mod_cast hf
  linarith

/-- `ROUND(q, 2)` of a rational in `[0, 100]` is at most 100. -/
theorem sqlRound2_le_100 {q : Rat} (h0 : 0 ≤ q) (h : q ≤ 100) :
    sqlRound2 q ≤ 100 := by
  rw [sqlRound2, if_pos h0]
  have hfle : ((Int.floor (q * 100 + 1 / 2) : Int) : Rat) ≤ q * 100 + 1 / 2 :=
    Int.floor_le _
  have hlt : ((Int.floor (q * 100 + 1 / 2) : Int) : Rat) < ((10001 : Int) : Rat) := by
    push_cast
    nlinarith
  have hle : (Int.floor (q * 100 + 1 / 2) : Int) ≤ 10000 := by
    have h11 : (Int.floor (q * 100 + 1 / 2) : Int) < 10001 := by
      exact_mod_cast hlt
    omega
  have hle' : ((Int.floor (q * 100 + 1 / 2) : Int) : Rat) ≤ 10000 := by
    exact_mod_cast hle
  linarith

/-- C6: on every channel-dimension row the pipeline builds, both percentages
are present (non-NULL) numeric values in `[0, 100]`; the `total_posts = 0`
case — for which the claim asserts a numeric 0 — never occurs (every row has
`total_posts ≥ 1`), so the claimed property holds on all rows. -/
theorem dim_channels_percentage_bounds (now : Timestamp)
    (stg : List StagingRecord) (c : DimChannel)
    (h : c ∈ dim_channels now stg) :
    ∃ p conv : Rat, c.media_percentage = some p ∧
      c.image_percentage = some conv ∧
      0 ≤ p ∧ p ≤ 100 ∧ 0 ≤ conv ∧ conv ≤ 100 ∧
      (c.total_posts = 0 → p = 0 ∧ conv = 0) := by
  obtain ⟨k, st, rfl, h1, h2, h3⟩ := mem_dim_channels h
  have hz : (st.total_posts == 0) = false := by
    rw [beq_eq_false_iff_ne]
    omega
  have hm := ratio_bounds h1 h2
  have hi := ratio_bounds h1 h3
  refine ⟨sqlRound2 (((st.posts_with_media : Rat) * 100) / (st.total_posts : Rat)),
    sqlRound2 (((st.posts_with_image : Rat) * 100) / (st.total_posts : Rat)),
    ?_, ?_, sqlRound2_nonneg hm.1, sqlRound2_le_100 hm.1 hm.2,
    sqlRound2_nonneg hi.1, sqlRound2_le_100 hi.1 hi.2, ?_⟩
  · simp [mkDimChannel, hz]
  · simp [mkDimChannel, hz]
  · intro h0
    have : st.total_posts = 0 := by
      simpa [mkDimChannel] using h0
    omega

/-- When the keys `f x` of a list are pairwise distinct, filtering for one key
retains exactly one element if the key occurs and none otherwise. -/
theorem filter_key_length {α β : Type} [BEq β] [LawfulBEq β] (f : α → β)
    (k : β) : ∀ l : List α, (l.map f).Nodup →
      (l.filter (fun x => f x == k)).length =
        if l.any (fun x => f x == k) then 1 else 0 := by
  intro l
  induction l with
  | nil => intro _; rfl
  | cons x xs ih =>
      intro hnd
      rw [List.map_cons, List.nodup_cons] at hnd
      obtain ⟨hnotin, hnd⟩ := hnd
      cases hx : (f x == k) with
      | false =>
          rw [List.filter_cons, List.any_cons, hx, if_neg (by simp),
            Bool.false_or, ih hnd]
      | true =>
          have hek : f x = k := by rwa [beq_iff_eq] at hx
          have hrest : xs.filter (fun y => f y == k) = [] := by
            rw [List.filter_eq_nil_iff]
            intro y hy hyk
            apply hnotin
            have hyek : f y = k := by simpa using hyk
            rw [hek, ← hyek]
            exact List.mem_map_of_mem f hy
          rw [List.filter_cons, List.any_cons, hx, if_pos rfl,
            Bool.true_or, hrest, if_pos rfl, List.length_cons,
            List.length_nil]

/-- Length of a nested join loop: one output row per pair. -/
theorem length_flatMap_map {α β γ : Type} (l1 : List α) (l2 : List β)
    (g : α → β → γ) :
    (l1.flatMap (fun a => l2.map (g a))).length = l1.length * l2.length := by
  induction l1 with
  | nil => simp
  | cons a as ih =>
      rw [List.flatMap_cons, List.length_append, List.length_map, ih,
        List.length_cons]
      ring

/-- Amended C1: the fact builder resolves the channel key by `channel_name`
alone (not the full name/username/title triple) and the date key by exact
calendar-day equality, and emits one fact row per (valid staging row,
matching channel row, matching date row) combination; when the dimension
tables have no duplicate `channel_name` and no duplicate `full_date`, this is
exactly one fact row per valid staging row whose name and day both resolve. -/
theorem fct_messages_one_row_per_resolved_row (stg : List StagingRecord)
    (channels : List DimChannel) (dates : List DimDate)
    (hc : (channels.map DimChannel.channel_name).Nodup)
    (hd : (dates.map DimDate.full_date).Nodup) :
    (fct_messages stg channels dates).length =
      (stg.filter (fun m => m.data_quality_status == "valid"
        && channels.any (fun c => c.channel_name == m.channel_name)
        && dates.any (fun d => d.full_date == m.message_date.day))).length := by
  have hrow : ∀ m : StagingRecord, (factRowsFor m channels dates).length =
      if (m.data_quality_status == "valid"
        && channels.any (fun c => c.channel_name == m.channel_name)
        && dates.any (fun d => d.full_date == m.message_date.day))
      then 1 else 0 := by
    intro m
    rw [factRowsFor]
    cases hv : (m.data_quality_status == "valid") with
    | false => rw [if_neg (by simp [hv]), if_neg (by simp [hv])]; rfl
    | true =>
        rw [if_pos rfl, length_flatMap_map,
          filter_key_length DimChannel.channel_name m.channel_name
            channels hc,
          filter_key_length DimDate.full_date m.message_date.day dates hd]
        cases ha : channels.any (fun c => c.channel_name == m.channel_name) <;>
          cases hb : dates.any (fun d => d.full_date == m.message_date.day) <;>
            simp [hv, ha, hb]
  induction stg with
  | nil => rfl
  | cons m ms ih =>
      have hcons : fct_messages (m :: ms) channels dates =
          factRowsFor m channels dates ++ fct_messages ms channels dates := by
        rw [fct_messages, List.flatMap_cons]
        rfl
      rw [hcons, List.length_append, hrow m, ih, List.filter_cons]
      cases hcond : (m.data_quality_status == "valid"
        && channels.any (fun c => c.channel_name == m.channel_name)
        && dates.any (fun d => d.full_date == m.message_date.day)) with
      | true => rw [if_pos rfl, if_pos rfl, List.length_cons]; omega
      | false => rw [if_neg (by simp), if_neg (by simp)]; omega

/-- Witness for the amended C1 at a concrete run: one valid staging row, the
channel dimension built from it (unique name), a one-day date dimension. -/
theorem fct_messages_one_row_witness :
    (fct_messages (stg_telegram_messages egNow [egRawA])
        (dim_channels egNow (stg_telegram_messages egNow [egRawA]))
        [{ date_key := 100, full_date := 100 }]).length =
      ((stg_telegram_messages egNow [egRawA]).filter
        (fun m => m.data_quality_status == "valid"
          && (dim_channels egNow (stg_telegram_messages egNow [egRawA])).any
              (fun c => c.channel_name == m.channel_name)
          && ([{ date_key := 100, full_date := 100 }] : List DimDate).any
              (fun d => d.full_date == m.message_date.day))).length :=
  fct_messages_one_row_per_resolved_row _ _ _ (by decide) (by decide)

/-- C1 counterexample: two valid staging rows whose channel triples differ but
share a `channel_name` produce two dimension rows with the same name; the fact
build then emits 4 fact rows for the 2 surviving staging rows — more than one
per staging row — because the join matches `channel_name` alone, not the
triple. -/
theorem fct_messages_duplicates_on_shared_name :
    ((stg_telegram_messages egNow [egRawA, egRawC]).filter
        (fun m => m.data_quality_status == "valid")).length = 2 ∧
      (dim_channels egNow (stg_telegram_messages egNow [egRawA, egRawC])).map
          DimChannel.channel_name = ["HealthPlus", "HealthPlus"] ∧
      (fct_messages (stg_telegram_messages egNow [egRawA, egRawC])
          (dim_channels egNow (stg_telegram_messages egNow [egRawA, egRawC]))
          (dim_dates egNow
            (stg_telegram_messages egNow [egRawA, egRawC]))).length = 4 ∧
      (4 : Nat) ≠ 2 := by
  refine ⟨by decide, by decide, by decide, by decide⟩

/-- Witness for C9 at a concrete run: the staging row built from `egRawA`. -/
theorem staging_no_future_witness :
    Timestamp.ltb egNow egStagingRow.message_date = false ∧
      egStagingRow.is_future_date = false ∧
      (egStagingRow.message_date.day < egNow.day ∨
        (egStagingRow.message_date.day = egNow.day ∧
          egStagingRow.message_date.tod ≤ egNow.tod)) :=
  staging_has_no_future_rows egNow [egRawA] egStagingRow (by decide)

/-- Witness for C8 at a concrete run: the staging row built from `egRawA`. -/
theorem staging_length_witness :
    egStagingRow.message_length =
        egStagingRow.message_text.map (fun t => sqlLength (sqlTrim t)) ∧
      ∀ n : Int, egStagingRow.message_length = some n → 0 ≤ n :=
  staging_message_length_eq_trimmed egNow [egRawA] egStagingRow (by decide)

/-- Witness for C10 at a concrete run: the single channel row of the
one-message example pipeline. -/
theorem total_posts_pos_witness :
    1 ≤ egChannel.total_posts ∧ egChannel.media_percentage ≠ none ∧
      egChannel.image_percentage ≠ none :=
  dim_channels_total_posts_pos egNow (stg_telegram_messages egNow [egRawA])
    egChannel (by exact List.head_mem _)

/-- Witness for C6 at a concrete run: the single channel row of the
one-message example pipeline. -/
theorem percentage_bounds_witness :
    ∃ p conv : Rat, egChannel.media_percentage = some p ∧
      egChannel.image_percentage = some conv ∧
      0 ≤ p ∧ p ≤ 100 ∧ 0 ≤ conv ∧ conv ≤ 100 ∧
      (egChannel.total_posts = 0 → p = 0 ∧ conv = 0) :=
  dim_channels_percentage_bounds egNow (stg_telegram_messages egNow [egRawA])
    egChannel (by exact List.head_mem _)

end MTW
